import Mathlib

/-!
Verification of the plate-generator core: a shallow embedding of the
geometric layout / image-mapping code (`imageUtils.js`, `CanvasPreview.jsx`,
`usePlatesStore.js`) over exact rational arithmetic, together with proofs of
the specified properties.

JavaScript numbers are modelled by `ℚ` (exact arithmetic; the spec's data
domains are positive reals well inside the double range, and no claim here
concerns floating-point rounding).  Pixel dimensions of decoded bitmaps are
naturals.  `x | 0` (ToInt32) and `Math.floor/ceil/round` are modelled
explicitly.
-/

namespace PlateGen

/-- JavaScript truncation toward zero of a finite number (the first step of
ToInt32): floor for nonnegative values, ceiling for negative ones. -/
def jsTrunc (q : ℚ) : ℤ := if 0 ≤ q then ⌊q⌋ else ⌈q⌉

/-- JavaScript `x | 0` on a finite number: ToInt32 = truncate toward zero,
then wrap into `[-2^31, 2^31)`. -/
def toInt32 (q : ℚ) : ℤ := (jsTrunc q + 2 ^ 31) % 2 ^ 32 - 2 ^ 31

/-- JavaScript `Math.round`: round half toward positive infinity. -/
def jsRound (q : ℚ) : ℤ := ⌊q + 1 / 2⌋

/-- Helper `clamp` from `usePlatesStore.js`: `Math.min(max, Math.max(min, v))`. -/
def clamp (v lo hi : ℚ) : ℚ := min hi (max lo v)

/-- Result record of `computeCover` (imageUtils.js). -/
structure Cover where
  scaledW : ℚ
  scaledH : ℚ
  offsetX : ℚ
  offsetY : ℚ
  scale : ℚ
deriving DecidableEq

/-- Function `computeCover` from `imageUtils.js` (guarded variant, lines 55–69):
coerces the image dimensions with `Math.max(1, x | 0)` and the canvas
dimensions with `Math.max(1, +x || 0)` (on rationals `+x || 0` is the
identity, since only `NaN` — excluded from this model — is replaced, and
`0 || 0 = 0`), then applies the CSS-cover formulas. -/
def computeCover (imgW imgH canvasW canvasH : ℚ) : Cover :=
  let iw : ℚ := max 1 (toInt32 imgW : ℚ)
  let ih : ℚ := max 1 (toInt32 imgH : ℚ)
  let cw : ℚ := max 1 canvasW
  let ch : ℚ := max 1 canvasH
  let scale : ℚ := max (cw / iw) (ch / ih)
  let scaledW : ℚ := iw * scale
  let scaledH : ℚ := ih * scale
  let offsetX : ℚ := (scaledW - cw) / 2
  let offsetY : ℚ := (scaledH - ch) / 2
  ⟨scaledW, scaledH, offsetX, offsetY, scale⟩

/-- Function `computeCover` from the second `imageUtils.js` variant (lines 140–147):
no defensive guards, exactly `scale = max(canvasW/imgW, canvasH/imgH)`,
`scaledW = imgW*scale`, `scaledH = imgH*scale`,
`offsetX = (scaledW-canvasW)/2`, `offsetY = (scaledH-canvasH)/2`. -/
def computeCoverRaw (imgW imgH canvasW canvasH : ℚ) : Cover :=
  let scale : ℚ := max (canvasW / imgW) (canvasH / imgH)
  let scaledW : ℚ := imgW * scale
  let scaledH : ℚ := imgH * scale
  let offsetX : ℚ := (scaledW - canvasW) / 2
  let offsetY : ℚ := (scaledH - canvasH) / 2
  ⟨scaledW, scaledH, offsetX, offsetY, scale⟩

/-! ### Layout engine (`CanvasPreview.jsx`) -/

/-- A plate record as stored: `{ id, widthCm, heightCm }`. -/
structure Plate where
  id : String
  widthCm : ℚ
  heightCm : ℚ
deriving DecidableEq

/-- Memo `virtual.totalW` from `CanvasPreview.jsx`:
`plates.reduce((acc, p) => acc + p.widthCm, 0)`. -/
def totalW (plates : List Plate) : ℚ :=
  plates.foldl (fun acc p => acc + p.widthCm) 0

/-- Memo `virtual.maxH` from `CanvasPreview.jsx`:
`plates.reduce((m, p) => Math.max(m, p.heightCm), 0)`. -/
def maxH (plates : List Plate) : ℚ :=
  plates.foldl (fun m p => max m p.heightCm) 0

/-- A per-plate offset `{ x0, y0 }` in virtual (cm) space. -/
structure Offset where
  x0 : ℚ
  y0 : ℚ
deriving DecidableEq

/-- The accumulator loop inside the `offsets` memo of `CanvasPreview.jsx`:
`let x = 0; plates.map(p => { const off = {x0: x, y0: maxH - p.heightCm};
x += p.widthCm; return off })`, with the running `x` made explicit. -/
def offsetsFrom (H x : ℚ) : List Plate → List Offset
  | [] => []
  | p :: ps => ⟨x, H - p.heightCm⟩ :: offsetsFrom H (x + p.widthCm) ps

/-- Memo `offsets` from `CanvasPreview.jsx` (the map closes over `virtual.maxH`). -/
def offsets (plates : List Plate) : List Offset :=
  offsetsFrom (maxH plates) 0 plates

/-- Demo plate list from the spec's concrete scenario:
`[{w:120,h:60},{w:100,h:40}]`. -/
def demoPlates : List Plate := [⟨"a", 120, 60⟩, ⟨"b", 100, 40⟩]

/-! ### Mirror tiler (`mirrorExtendHorizontal`, imageUtils.js) -/

/-- A decoded bitmap: intrinsic pixel width and height. -/
structure Bitmap where
  width : ℕ
  height : ℕ
deriving DecidableEq

/-- Tile `unit` in `mirrorExtendHorizontal` (guarded variant, lines 86–97):
`Math.max(1, img.width | 0)`. -/
def mirrorUnit (img : Bitmap) : ℤ := max 1 (toInt32 (img.width : ℚ))

/-- Tile count `layers` in `mirrorExtendHorizontal`:
`Math.min(Math.max(1, Math.ceil((+targetWidth || 0) / unit)),
Math.max(1, Math.floor(maxWidth / unit)))` (on rationals `+x || 0` is the
identity, as in `computeCover`). -/
def mirrorLayers (img : Bitmap) (targetWidth maxWidth : ℚ) : ℤ :=
  min (max 1 ⌈targetWidth / (mirrorUnit img : ℚ)⌉)
    (max 1 ⌊maxWidth / (mirrorUnit img : ℚ)⌋)

/-- The pixel width of the bitmap returned by `mirrorExtendHorizontal`:
`width = Math.max(unit, layers * unit)`, the width of the canvas the tiles
are drawn to. -/
def mirrorWidth (img : Bitmap) (targetWidth maxWidth : ℚ) : ℤ :=
  max (mirrorUnit img) (mirrorLayers img targetWidth maxWidth * mirrorUnit img)

/-! ### Motif resolution (`CanvasPreview.jsx`, `useEffect` run body) -/

/-- Outcome of one motif-resolution cycle: either the motif is mirror-extended
(recording the target width passed to `mirrorExtendHorizontal`) or the plain
motif URL with its intrinsic pixel dimensions is kept. -/
inductive Resolved
  | mirrored (targetWidth : ℚ)
  | plain (url : String) (w h : ℕ)
deriving DecidableEq

/-- The decision logic of the `run` body in `CanvasPreview.jsx` (authoritative
variant, lines 496–534): `shouldMirror = virtual.totalW > 300`; when mirroring,
`neededWidth = Math.min(Math.ceil(img.height * (virtual.totalW /
Math.max(1, virtual.maxH))), 8192)` is passed to `mirrorExtendHorizontal`;
otherwise `imgInfo = { url: motifUrl, w: img.width, h: img.height }`.
The asynchronous image loads, the data-URL and the mount guard are I/O around
this decision and are not part of the embedding. -/
def resolveMotif (motifUrl : String) (img : Bitmap) (plates : List Plate) :
    Resolved :=
  if totalW plates > 300 then
    Resolved.mirrored
      (min (⌈(img.height : ℚ) * (totalW plates / max 1 (maxH plates))⌉ : ℚ) 8192)
  else
    Resolved.plain motifUrl img.width img.height

/-- A wide two-plate configuration: total width 350 cm, max height 60 cm. -/
def widePlates : List Plate := [⟨"a", 200, 60⟩, ⟨"b", 150, 40⟩]

/-! ### Store (`usePlatesStore.js`)

Zustand's `set` with a partial object merges the given keys into the state;
each action below is embedded as a pure function `StoreState → StoreState`.
`uuid()` is an effectful fresh-id generator; it is modelled by passing the
generated id as an explicit argument (no claim depends on its value). -/

/-- Display unit: `"cm" | "in"`. -/
inductive UnitKind
  | cm
  | inch
deriving DecidableEq

/-- The persisted store state: plate list, motif URL, optional mirror toggle,
active display unit. -/
structure StoreState where
  plates : List Plate
  motifUrl : String
  mirrorEnabled : Bool
  unit : UnitKind
deriving DecidableEq

/-- Constant `CM_PER_IN = 2.54`. -/
def CM_PER_IN : ℚ := 254 / 100

/-- Module-scope `defaultPlates`: one 120×60 plate (its uuid modelled as a
fixed opaque id). -/
def defaultPlates : List Plate := [⟨"default-plate", 120, 60⟩]

/-- Action `setMotifUrl: (url) => set({ motifUrl: url || get().motifUrl })`.
`none` models `null`/`undefined`; the only falsy string is `""`. -/
def setMotifUrl (url : Option String) (s : StoreState) : StoreState :=
  { s with motifUrl := match url with
      | some u => if u = "" then s.motifUrl else u
      | none => s.motifUrl }

/-- Action `setMirrorEnabled: (v) => set({ mirrorEnabled: !!v })`. -/
def setMirrorEnabled (v : Bool) (s : StoreState) : StoreState :=
  { s with mirrorEnabled := v }

/-- Action `setUnit: (u) => set({ unit: u === 'in' ? 'in' : 'cm' })`. -/
def setUnit (u : String) (s : StoreState) : StoreState :=
  { s with unit := if u = "in" then UnitKind.inch else UnitKind.cm }

/-- Helper `cmToUnit: (cm) => (get().unit === 'in' ? cm / CM_PER_IN : cm)`. -/
def cmToUnit (s : StoreState) (cm : ℚ) : ℚ :=
  if s.unit = UnitKind.inch then cm / CM_PER_IN else cm

/-- Helper `unitToCm: (val) => (get().unit === 'in' ? val * CM_PER_IN : val)`. -/
def unitToCm (s : StoreState) (val : ℚ) : ℚ :=
  if s.unit = UnitKind.inch then val * CM_PER_IN else val

/-- Action `addPlate`: rejects when 10 plates are present, otherwise appends a fresh
plate with `widthCm = clamp(round((plate.widthCm ?? 100)*10)/10, 20, 300)` and
`heightCm = clamp(round((plate.heightCm ?? 60)*10)/10, 30, 128)`.  The patch's
possibly-missing fields are `Option ℚ`. -/
def addPlate (newId : String) (patchW patchH : Option ℚ) (s : StoreState) :
    StoreState :=
  if 10 ≤ s.plates.length then s
  else
    { s with plates := s.plates ++
        [{ id := newId,
           widthCm := clamp ((jsRound (patchW.getD 100 * 10) : ℚ) / 10) 20 300,
           heightCm := clamp ((jsRound (patchH.getD 60 * 10) : ℚ) / 10) 30 128 }] }

/-- Action `removeById`: keeps at least one plate; filters out plates whose id
matches; if the filter empties the list, the state is kept
(`next.length ? { plates: next } : state`). -/
def removeById (id : String) (s : StoreState) : StoreState :=
  if s.plates.length ≤ 1 then s
  else if (s.plates.filter fun p => p.id != id).length ≠ 0 then
    { s with plates := s.plates.filter fun p => p.id != id }
  else s

/-- Action `updatePlate`: maps over the plates, merging the patch into the plate with
the given id. -/
def updatePlate (id : String) (patchW patchH : Option ℚ) (s : StoreState) :
    StoreState :=
  { s with plates := s.plates.map fun p =>
      if p.id = id then
        { p with widthCm := patchW.getD p.widthCm,
                 heightCm := patchH.getD p.heightCm }
      else p }

/-- The splice pair inside `movePlate`: `arr.splice(from, 1)` removes the
element at `from` (returning it), `arr.splice(to, 0, item)` reinserts it at
`to`.  Under the caller's bounds check the lookup always succeeds. -/
def movePlateList (fromIdx toIdx : ℕ) (l : List Plate) : List Plate :=
  match l[fromIdx]? with
  | none => l
  | some item => (l.eraseIdx fromIdx).insertIdx toIdx item

/-- Action `movePlate(from, to)`: no-op unless `0 ≤ from,to < plates.length` (JS
indices may be any number; integers suffice for index semantics), otherwise
splice out at `from` and splice back in at `to`. -/
def movePlate (fromIdx toIdx : ℤ) (s : StoreState) : StoreState :=
  if fromIdx < 0 ∨ (s.plates.length : ℤ) ≤ fromIdx
      ∨ toIdx < 0 ∨ (s.plates.length : ℤ) ≤ toIdx then s
  else { s with plates := movePlateList fromIdx.toNat toIdx.toNat s.plates }

/-- Action `reset: () => ({ plates: defaultPlates })` (merged by `set`, so the other
fields are kept). -/
def reset (s : StoreState) : StoreState := { s with plates := defaultPlates }

/-- Demo store state with two plates, used by the witnesses. -/
def sDemo : StoreState :=
  ⟨[⟨"a", 120, 60⟩, ⟨"b", 100, 40⟩], "m", false, UnitKind.cm⟩

/-- Inch-unit variant of the demo state. -/
def sDemoIn : StoreState :=
  ⟨[⟨"a", 120, 60⟩, ⟨"b", 100, 40⟩], "m", false, UnitKind.inch⟩

/-! ### Properties -/

/-- If `w / a ≤ m` and `a > 0` then `w ≤ a * m`. -/
lemma le_mul_of_div_le {a w m : ℚ} (ha : 0 < a) (hm : w / a ≤ m) :
    w ≤ a * m := by
  have h := mul_le_mul_of_nonneg_left hm ha.le
  rwa [mul_div_cancel₀ w ha.ne'] at h

/-- An image scaled by `max (w/a) (h/b)` with width `a > 0` spans `≥ w`. -/
lemma cover_spans_left {a b w h : ℚ} (ha : 0 < a) :
    w ≤ a * max (w / a) (h / b) :=
  le_mul_of_div_le ha (le_max_left _ _)

/-- An image scaled by `max (w/a) (h/b)` with height `b > 0` spans `≥ h`. -/
lemma cover_spans_right {a b w h : ℚ} (hb : 0 < b) :
    h ≤ b * max (w / a) (h / b) :=
  le_mul_of_div_le hb (le_max_right _ _)

lemma one_le_max_one (x : ℚ) : (1 : ℚ) ≤ max 1 x := le_max_left _ _

lemma max_one_pos (x : ℚ) : (0 : ℚ) < max 1 x :=
  lt_of_lt_of_le one_pos (one_le_max_one x)

/-- C1: for every positive image width/height and canvas width/height,
`computeCover` (both the guarded and the raw variant, the latter computing
literally `scale = max(canvasW/imageW, canvasH/imageH)`,
`scaledW = imageW*scale`, `scaledH = imageH*scale`,
`offsetX = (scaledW-canvasW)/2`, `offsetY = (scaledH-canvasH)/2`)
returns `scaledW ≥ canvasW`, `scaledH ≥ canvasH`, `offsetX ≥ 0` and
`offsetY ≥ 0`. -/
theorem computeCover_coverage (imgW imgH canvasW canvasH : ℚ)
    (hiw : 0 < imgW) (hih : 0 < imgH) (hcw : 0 < canvasW) (hch : 0 < canvasH) :
    canvasW ≤ (computeCoverRaw imgW imgH canvasW canvasH).scaledW ∧
    canvasH ≤ (computeCoverRaw imgW imgH canvasW canvasH).scaledH ∧
    0 ≤ (computeCoverRaw imgW imgH canvasW canvasH).offsetX ∧
    0 ≤ (computeCoverRaw imgW imgH canvasW canvasH).offsetY ∧
    canvasW ≤ (computeCover imgW imgH canvasW canvasH).scaledW ∧
    canvasH ≤ (computeCover imgW imgH canvasW canvasH).scaledH ∧
    0 ≤ (computeCover imgW imgH canvasW canvasH).offsetX ∧
    0 ≤ (computeCover imgW imgH canvasW canvasH).offsetY := by
  have rawW : canvasW ≤ (computeCoverRaw imgW imgH canvasW canvasH).scaledW :=
    cover_spans_left hiw
  have rawH : canvasH ≤ (computeCoverRaw imgW imgH canvasW canvasH).scaledH :=
    cover_spans_right hih
  have gW : canvasW ≤ (computeCover imgW imgH canvasW canvasH).scaledW := by
    have h1 : canvasW ≤ max 1 canvasW := le_max_right _ _
    have h2 : max 1 canvasW ≤ (computeCover imgW imgH canvasW canvasH).scaledW :=
      cover_spans_left (max_one_pos _)
    exact h1.trans h2
  have gH : canvasH ≤ (computeCover imgW imgH canvasW canvasH).scaledH := by
    have h1 : canvasH ≤ max 1 canvasH := le_max_right _ _
    have h2 : max 1 canvasH ≤ (computeCover imgW imgH canvasW canvasH).scaledH :=
      cover_spans_right (max_one_pos _)
    exact h1.trans h2
  refine ⟨rawW, rawH, ?_, ?_, gW, gH, ?_, ?_⟩
  · exact div_nonneg (sub_nonneg.mpr rawW) (by norm_num)
  · exact div_nonneg (sub_nonneg.mpr rawH) (by norm_num)
  · exact div_nonneg (sub_nonneg.mpr (cover_spans_left (max_one_pos _)))
      (by norm_num)
  · exact div_nonneg (sub_nonneg.mpr (cover_spans_right (max_one_pos _)))
      (by norm_num)

/-- Witness for C1 at the spec's concrete scenario: a 400×300 image on a
220×60 canvas. -/
theorem computeCover_coverage_witness :
    (0 : ℚ) < 400 ∧ (0 : ℚ) < 300 ∧ (0 : ℚ) < 220 ∧ (0 : ℚ) < 60 ∧
    ((220 : ℚ) ≤ (computeCoverRaw 400 300 220 60).scaledW ∧
     (60 : ℚ) ≤ (computeCoverRaw 400 300 220 60).scaledH ∧
     0 ≤ (computeCoverRaw 400 300 220 60).offsetX ∧
     0 ≤ (computeCoverRaw 400 300 220 60).offsetY ∧
     (220 : ℚ) ≤ (computeCover 400 300 220 60).scaledW ∧
     (60 : ℚ) ≤ (computeCover 400 300 220 60).scaledH ∧
     0 ≤ (computeCover 400 300 220 60).offsetX ∧
     0 ≤ (computeCover 400 300 220 60).offsetY) :=
  ⟨by norm_num, by norm_num, by norm_num, by norm_num,
   computeCover_coverage 400 300 220 60 (by norm_num) (by norm_num)
     (by norm_num) (by norm_num)⟩

lemma foldl_add_widths (l : List Plate) :
    ∀ x : ℚ, l.foldl (fun acc p => acc + p.widthCm) x
      = x + (l.map Plate.widthCm).sum := by
  induction l with
  | nil => intro x; simp
  | cons p ps ih =>
      intro x
      simp only [List.foldl_cons, List.map_cons, List.sum_cons, ih]
      ring

lemma totalW_eq_sum (l : List Plate) :
    totalW l = (l.map Plate.widthCm).sum := by
  simpa using foldl_add_widths l 0

lemma le_foldl_max (l : List Plate) :
    ∀ a : ℚ, a ≤ l.foldl (fun m p => max m p.heightCm) a := by
  induction l with
  | nil => intro a; simp
  | cons p ps ih =>
      intro a
      exact (le_max_left a p.heightCm).trans (ih (max a p.heightCm))

lemma mem_le_foldl_max (l : List Plate) :
    ∀ a : ℚ, ∀ p ∈ l, p.heightCm ≤ l.foldl (fun m p => max m p.heightCm) a := by
  induction l with
  | nil => intro a p hp; simp at hp
  | cons q qs ih =>
      intro a p hp
      rcases List.mem_cons.mp hp with h | h
      · subst h
        exact (le_max_right a p.heightCm).trans (le_foldl_max qs _)
      · exact ih _ p h

lemma foldl_max_mem (l : List Plate) :
    ∀ a : ℚ, l.foldl (fun m p => max m p.heightCm) a = a ∨
      ∃ p ∈ l, l.foldl (fun m p => max m p.heightCm) a = p.heightCm := by
  induction l with
  | nil => intro a; exact Or.inl rfl
  | cons q qs ih =>
      intro a
      rcases ih (max a q.heightCm) with h | ⟨p, hp, hval⟩
      · rcases max_cases a q.heightCm with ⟨hm, _⟩ | ⟨hm, _⟩
        · exact Or.inl (by simpa [hm] using h)
        · exact Or.inr ⟨q, List.mem_cons_self _ _, by simpa [hm] using h⟩
      · exact Or.inr ⟨p, List.mem_cons_of_mem _ hp, hval⟩

lemma offsetsFrom_getElem? (H : ℚ) :
    ∀ (l : List Plate) (x : ℚ) (i : ℕ) (p : Plate), l[i]? = some p →
      (offsetsFrom H x l)[i]?
        = some ⟨x + ((l.take i).map Plate.widthCm).sum, H - p.heightCm⟩ := by
  intro l
  induction l with
  | nil => intro x i p hp; simp at hp
  | cons q qs ih =>
      intro x i p hp
      cases i with
      | zero =>
          simp only [List.getElem?_cons_zero, Option.some.injEq] at hp
          subst hp
          simp [offsetsFrom]
      | succ i =>
          simp only [List.getElem?_cons_succ] at hp
          simp only [offsetsFrom, List.getElem?_cons_succ, List.take_succ_cons,
            List.map_cons, List.sum_cons, ih (x + q.widthCm) i p hp]
          exact congrArg some (by simp [Offset.mk.injEq]; ring)

/-- C2: for every plate sequence of length 1–10 with widths in [20,300] and
heights in [30,128], the layout gives `virtualW = Σ widths`,
`virtualH = max heights` (attained by some plate and bounding all of them),
and `offsets[i] = {x0: Σ_{j<i} width_j, y0: virtualH - height_i}`, so that
`y0 + height_i = virtualH` for every index. -/
theorem layout_correct (plates : List Plate)
    (hlen1 : 1 ≤ plates.length) (hlen10 : plates.length ≤ 10)
    (hw : ∀ p ∈ plates, 20 ≤ p.widthCm ∧ p.widthCm ≤ 300)
    (hh : ∀ p ∈ plates, 30 ≤ p.heightCm ∧ p.heightCm ≤ 128) :
    totalW plates = (plates.map Plate.widthCm).sum ∧
    (∃ p ∈ plates, maxH plates = p.heightCm) ∧
    (∀ p ∈ plates, p.heightCm ≤ maxH plates) ∧
    (∀ (i : ℕ) (p : Plate), plates[i]? = some p →
      (offsets plates)[i]?
        = some ⟨((plates.take i).map Plate.widthCm).sum,
                maxH plates - p.heightCm⟩ ∧
      ∀ o : Offset, (offsets plates)[i]? = some o →
        o.y0 + p.heightCm = maxH plates) := by
  refine ⟨totalW_eq_sum plates, ?_, ?_, ?_⟩
  · rcases foldl_max_mem plates 0 with h0 | hmem
    · cases plates with
      | nil => simp at hlen1
      | cons q qs =>
          exfalso
          have hq : (30 : ℚ) ≤ q.heightCm := (hh q (List.mem_cons_self _ _)).1
          have hle : q.heightCm ≤ maxH (q :: qs) :=
            mem_le_foldl_max (q :: qs) 0 q (List.mem_cons_self _ _)
          rw [show maxH (q :: qs)
              = (q :: qs).foldl (fun m p => max m p.heightCm) 0 from rfl, h0] at hle
          linarith
    · exact hmem
  · exact fun p hp => mem_le_foldl_max plates 0 p hp
  · intro i p hp
    have hoff := offsetsFrom_getElem? (maxH plates) plates 0 i p hp
    rw [zero_add] at hoff
    refine ⟨hoff, ?_⟩
    intro o ho
    have hsome : some (Offset.mk ((plates.take i).map Plate.widthCm).sum
        (maxH plates - p.heightCm)) = some o := hoff.symm.trans ho
    injection hsome with h
    rw [← h]
    simp

/-- Witness for C2 at the spec scenario: `virtualW = 220`, `virtualH = 60`,
offsets `{x0:0,y0:0}` and `{x0:120,y0:20}`. -/
theorem layout_correct_witness :
    totalW demoPlates = 220 ∧ maxH demoPlates = 60 ∧
    (offsets demoPlates)[0]? = some ⟨0, 0⟩ ∧
    (offsets demoPlates)[1]? = some ⟨120, 20⟩ := by
  have h := layout_correct demoPlates (by norm_num [demoPlates])
    (by norm_num [demoPlates]) (by norm_num [demoPlates])
    (by norm_num [demoPlates])
  have hmax : maxH demoPlates = 60 := by
    norm_num [maxH, demoPlates, max_def]
  have h0 := (h.2.2.2 0 ⟨"a", 120, 60⟩ rfl).1
  have h1 := (h.2.2.2 1 ⟨"b", 100, 40⟩ rfl).1
  rw [hmax] at h0 h1
  refine ⟨?_, hmax, ?_, ?_⟩
  · norm_num [totalW, demoPlates]
  · rw [h0]; norm_num [demoPlates]
  · rw [h1]; norm_num [demoPlates]

/-- ToInt32 is the identity on small naturals. -/
lemma toInt32_natCast_of_lt (n : ℕ) (h : (n : ℤ) < 2 ^ 31) :
    toInt32 (n : ℚ) = n := by
  have h0 : (0 : ℚ) ≤ (n : ℚ) := by positivity
  have hfl : ⌊(n : ℚ)⌋ = (n : ℤ) := Int.floor_natCast n
  simp only [toInt32, jsTrunc, if_pos h0, hfl]
  rw [Int.emod_eq_of_lt (by positivity) (by omega)]
  ring

/-- For a positive pixel width below 2^31, `unit` is just the width. -/
lemma mirrorUnit_eq (w h : ℕ) (hw : 0 < w) (h32 : (w : ℤ) < 2 ^ 31) :
    mirrorUnit ⟨w, h⟩ = w := by
  simp only [mirrorUnit, toInt32_natCast_of_lt w h32]
  exact max_eq_right (by exact_mod_cast hw)

/-- Multiplying `⌊M/u⌋` back by `u > 0` stays below `M`. -/
lemma floor_div_mul_le (M : ℚ) (u : ℤ) (hu : 0 < u) :
    ((⌊M / (u : ℚ)⌋ * u : ℤ) : ℚ) ≤ M := by
  have hu' : (0 : ℚ) < (u : ℚ) := by exact_mod_cast hu
  push_cast
  calc (⌊M / (u : ℚ)⌋ : ℚ) * u ≤ M / u * u :=
        mul_le_mul_of_nonneg_right (Int.floor_le _) hu'.le
    _ = M := div_mul_cancel₀ M hu'.ne'

/-- C3 counterexample: a source bitmap of unit width 9000 px with the
default cap 8192 yields an output width of 9000 px — the tile count is
clamped to at least 1, so `count * unitWidth ≤ maxWidthPx` fails. -/
theorem mirrorWidth_cap_cex :
    mirrorWidth ⟨9000, 3000⟩ 10000 8192 = 9000 ∧
    ¬ (mirrorWidth ⟨9000, 3000⟩ 10000 8192 ≤ 8192) := by
  have hunit : mirrorUnit ⟨9000, 3000⟩ = 9000 :=
    mirrorUnit_eq 9000 3000 (by norm_num) (by norm_num)
  have hceil : ⌈(10000 : ℚ) / ((9000 : ℤ) : ℚ)⌉ = 2 := by
    rw [Int.ceil_eq_iff]
    constructor <;> norm_num
  have hfloor : ⌊(8192 : ℚ) / ((9000 : ℤ) : ℚ)⌋ = 0 := by
    rw [Int.floor_eq_iff]
    constructor <;> norm_num
  have hlay : mirrorLayers ⟨9000, 3000⟩ 10000 8192 = 1 := by
    rw [mirrorLayers, hunit, hceil, hfloor]
    norm_num
  have hwid : mirrorWidth ⟨9000, 3000⟩ 10000 8192 = 9000 := by
    rw [mirrorWidth, hlay, hunit]
    norm_num
  exact ⟨hwid, by rw [hwid]; norm_num⟩

/-- C3 (amended): whenever the source unit width is positive and does not
itself exceed the cap, the clamped tile count is at least 1 and the output
width `count * unitWidth` never exceeds `maxWidthPx = 8192`. -/
theorem mirrorWidth_le_cap (w h : ℕ) (t : ℚ) (hw : 0 < w)
    (hcap : (w : ℤ) ≤ 8192) :
    1 ≤ mirrorLayers ⟨w, h⟩ t 8192 ∧ mirrorWidth ⟨w, h⟩ t 8192 ≤ 8192 := by
  have h32 : (w : ℤ) < 2 ^ 31 := by omega
  have hunit : mirrorUnit ⟨w, h⟩ = w := mirrorUnit_eq w h hw h32
  have hwZ : (0 : ℤ) < (w : ℤ) := by exact_mod_cast hw
  have hwQ : (0 : ℚ) < (w : ℚ) := by exact_mod_cast hw
  have hlay1 : 1 ≤ mirrorLayers ⟨w, h⟩ t 8192 :=
    le_min (le_max_left _ _) (le_max_left _ _)
  refine ⟨hlay1, ?_⟩
  have hlay_eq : mirrorLayers ⟨w, h⟩ t 8192
      = min (max 1 ⌈t / (w : ℚ)⌉) (max 1 ⌊(8192 : ℚ) / (w : ℚ)⌋) := by
    rw [mirrorLayers, hunit]
    simp only [Int.cast_natCast]
  have hfl1 : 1 ≤ ⌊(8192 : ℚ) / (w : ℚ)⌋ := by
    rw [Int.le_floor]
    rw [show ((1 : ℤ) : ℚ) = 1 by norm_num]
    rw [one_le_div hwQ]
    exact_mod_cast hcap
  have hlayle : mirrorLayers ⟨w, h⟩ t 8192 ≤ ⌊(8192 : ℚ) / (w : ℚ)⌋ := by
    rw [hlay_eq]
    exact (min_le_right _ _).trans (le_of_eq (max_eq_right hfl1))
  have hmul : mirrorLayers ⟨w, h⟩ t 8192 * (w : ℤ)
      ≤ ⌊(8192 : ℚ) / (w : ℚ)⌋ * (w : ℤ) :=
    mul_le_mul_of_nonneg_right hlayle hwZ.le
  have hfin : (⌊(8192 : ℚ) / (w : ℚ)⌋ * (w : ℤ) : ℤ) ≤ 8192 := by
    have h2 := floor_div_mul_le 8192 (w : ℤ) hwZ
    rw [show (((w : ℤ) : ℚ)) = (w : ℚ) by push_cast; ring] at h2
    exact_mod_cast h2
  have hbig : mirrorWidth ⟨w, h⟩ t 8192
      = mirrorLayers ⟨w, h⟩ t 8192 * mirrorUnit ⟨w, h⟩ := by
    rw [mirrorWidth]
    exact max_eq_right (le_mul_of_one_le_left
      (by rw [hunit]; exact hwZ.le) hlay1)
  rw [hbig, hunit]
  exact hmul.trans hfin

/-- Witness for C3 (amended) at a 400×300 source and target 1750 px. -/
theorem mirrorWidth_le_cap_witness :
    0 < 400 ∧ ((400 : ℕ) : ℤ) ≤ 8192 ∧
    (1 ≤ mirrorLayers ⟨400, 300⟩ 1750 8192 ∧
     mirrorWidth ⟨400, 300⟩ 1750 8192 ≤ 8192) :=
  ⟨by norm_num, by norm_num,
   mirrorWidth_le_cap 400 300 1750 (by norm_num) (by norm_num)⟩

lemma min_mul_nonneg (a b c : ℤ) (hc : 0 ≤ c) :
    min a b * c = min (a * c) (b * c) := by
  rcases le_total a b with hab | hab
  · rw [min_eq_left hab, min_eq_left (mul_le_mul_of_nonneg_right hab hc)]
  · rw [min_eq_right hab, min_eq_right (mul_le_mul_of_nonneg_right hab hc)]

/-- C4 counterexample: with unit width 5000, target 8000 and cap 8192 the
output width is 5000 px, strictly below `min(targetWidthPx, maxWidthPx) =
8000`, hence not the smallest unit multiple reaching it. -/
theorem mirrorWidth_smallest_cex :
    mirrorWidth ⟨5000, 3000⟩ 8000 8192 = 5000 ∧
    ((mirrorWidth ⟨5000, 3000⟩ 8000 8192 : ℤ) : ℚ) < min (8000 : ℚ) 8192 := by
  have hunit : mirrorUnit ⟨5000, 3000⟩ = 5000 :=
    mirrorUnit_eq 5000 3000 (by norm_num) (by norm_num)
  have hceil : ⌈(8000 : ℚ) / ((5000 : ℤ) : ℚ)⌉ = 2 := by
    rw [Int.ceil_eq_iff]
    constructor <;> norm_num
  have hfloor : ⌊(8192 : ℚ) / ((5000 : ℤ) : ℚ)⌋ = 1 := by
    rw [Int.floor_eq_iff]
    constructor <;> norm_num
  have hlay : mirrorLayers ⟨5000, 3000⟩ 8000 8192 = 1 := by
    rw [mirrorLayers, hunit, hceil, hfloor]
    norm_num
  have hwid : mirrorWidth ⟨5000, 3000⟩ 8000 8192 = 5000 := by
    rw [mirrorWidth, hlay, hunit]
    norm_num
  refine ⟨hwid, ?_⟩
  rw [hwid, lt_min_iff]
  constructor <;> norm_num

/-- C4 (amended): for a positive unit width `w ≤ maxWidthPx` and a target
`0 < targetWidthPx ≤ maxWidthPx`, the output width equals
`min(smallest multiple of w ≥ target, maxWidthPx rounded down to a unit
multiple)` — in particular it never exceeds the rounded-down cap — where
`⌈t/w⌉*w` is indeed the least unit multiple reaching the target. -/
theorem mirrorWidth_eq_min (w h : ℕ) (t maxW : ℚ) (hw : 0 < w)
    (h32 : (w : ℤ) < 2 ^ 31) (hwle : (w : ℚ) ≤ maxW)
    (ht : 0 < t) (htle : t ≤ maxW) :
    mirrorWidth ⟨w, h⟩ t maxW
      = min (⌈t / (w : ℚ)⌉ * (w : ℤ)) (⌊maxW / (w : ℚ)⌋ * (w : ℤ)) ∧
    t ≤ ((⌈t / (w : ℚ)⌉ * (w : ℤ) : ℤ) : ℚ) ∧
    (∀ k : ℤ, t ≤ ((k * (w : ℤ) : ℤ) : ℚ) →
      ⌈t / (w : ℚ)⌉ * (w : ℤ) ≤ k * (w : ℤ)) ∧
    mirrorWidth ⟨w, h⟩ t maxW ≤ ⌊maxW / (w : ℚ)⌋ * (w : ℤ) := by
  have hunit : mirrorUnit ⟨w, h⟩ = w := mirrorUnit_eq w h hw h32
  have hwZ : (0 : ℤ) < (w : ℤ) := by exact_mod_cast hw
  have hwQ : (0 : ℚ) < (w : ℚ) := by exact_mod_cast hw
  have hlay_eq0 : mirrorLayers ⟨w, h⟩ t maxW
      = min (max 1 ⌈t / (w : ℚ)⌉) (max 1 ⌊maxW / (w : ℚ)⌋) := by
    rw [mirrorLayers, hunit]
    simp only [Int.cast_natCast]
  have hceil1 : 1 ≤ ⌈t / (w : ℚ)⌉ := Int.ceil_pos.mpr (div_pos ht hwQ)
  have hfl1 : 1 ≤ ⌊maxW / (w : ℚ)⌋ := by
    rw [Int.le_floor]
    rw [show ((1 : ℤ) : ℚ) = 1 by norm_num]
    rw [one_le_div hwQ]
    exact hwle
  have hlay_eq : mirrorLayers ⟨w, h⟩ t maxW
      = min ⌈t / (w : ℚ)⌉ ⌊maxW / (w : ℚ)⌋ := by
    rw [hlay_eq0, max_eq_right hceil1, max_eq_right hfl1]
  have hlay1 : 1 ≤ mirrorLayers ⟨w, h⟩ t maxW := by
    rw [hlay_eq]
    exact le_min hceil1 hfl1
  have hwid : mirrorWidth ⟨w, h⟩ t maxW
      = mirrorLayers ⟨w, h⟩ t maxW * (w : ℤ) := by
    rw [mirrorWidth]
    rw [max_eq_right (le_mul_of_one_le_left
      (by rw [hunit]; exact hwZ.le) hlay1)]
    rw [hunit]
  have hmain : mirrorWidth ⟨w, h⟩ t maxW
      = min (⌈t / (w : ℚ)⌉ * (w : ℤ)) (⌊maxW / (w : ℚ)⌋ * (w : ℤ)) := by
    rw [hwid, hlay_eq, min_mul_nonneg _ _ _ hwZ.le]
  refine ⟨hmain, ?_, ?_, ?_⟩
  · have h1 : t / (w : ℚ) ≤ (⌈t / (w : ℚ)⌉ : ℚ) := Int.le_ceil _
    have h2 := mul_le_mul_of_nonneg_right h1 hwQ.le
    rw [div_mul_cancel₀ t hwQ.ne'] at h2
    push_cast
    exact h2
  · intro k hk
    have h1 : t / (w : ℚ) ≤ (k : ℚ) := by
      rw [div_le_iff hwQ]
      push_cast at hk
      exact hk
    exact mul_le_mul_of_nonneg_right (Int.ceil_le.mpr h1) hwZ.le
  · rw [hmain]
    exact min_le_right _ _

/-- Witness for C4 (amended) at unit 5000, target 8000, cap 8192:
the output width is `min(10000, 5000) = 5000`. -/
theorem mirrorWidth_eq_min_witness :
    (0 < 5000 ∧ ((5000 : ℕ) : ℤ) < 2 ^ 31 ∧ ((5000 : ℕ) : ℚ) ≤ 8192 ∧
     (0 : ℚ) < 8000 ∧ (8000 : ℚ) ≤ 8192) ∧
    mirrorWidth ⟨5000, 3000⟩ 8000 8192 = 5000 := by
  have h := mirrorWidth_eq_min 5000 3000 8000 8192 (by norm_num)
    (by norm_num) (by norm_num) (by norm_num) (by norm_num)
  have hceil : ⌈(8000 : ℚ) / ((5000 : ℕ) : ℚ)⌉ = 2 := by
    rw [Int.ceil_eq_iff]
    constructor <;> norm_num
  have hfloor : ⌊(8192 : ℚ) / ((5000 : ℕ) : ℚ)⌋ = 1 := by
    rw [Int.floor_eq_iff]
    constructor <;> norm_num
  refine ⟨⟨by norm_num, by norm_num, by norm_num, by norm_num, by norm_num⟩, ?_⟩
  rw [h.1, hceil, hfloor]
  norm_num

/-- C5: the motif-resolution step mirror-extends exactly when
`virtualW > 300`; when it does, the target width passed to the tiler is
`min(⌈imageH * (virtualW / max(1, virtualH))⌉, 8192)`; when `virtualW ≤ 300`
the plain motif (original URL and intrinsic dimensions) is used unchanged. -/
theorem resolveMotif_rule (motifUrl : String) (img : Bitmap)
    (plates : List Plate) :
    (totalW plates > 300 →
      resolveMotif motifUrl img plates = Resolved.mirrored
        (min (⌈(img.height : ℚ) * (totalW plates / max 1 (maxH plates))⌉ : ℚ)
          8192)) ∧
    (totalW plates ≤ 300 →
      resolveMotif motifUrl img plates
        = Resolved.plain motifUrl img.width img.height) ∧
    (∀ t : ℚ, resolveMotif motifUrl img plates = Resolved.mirrored t →
      totalW plates > 300) := by
  refine ⟨?_, ?_, ?_⟩
  · intro hgt
    rw [resolveMotif, if_pos hgt]
  · intro hle
    rw [resolveMotif, if_neg (not_lt.mpr hle)]
  · intro t hmir
    by_contra hle
    rw [resolveMotif, if_neg hle] at hmir
    exact Resolved.noConfusion hmir

/-- Witness for C5: at `virtualW = 350 > 300` with a 400×300 image the tiler
target is `min(⌈300·350/60⌉, 8192) = 1750` (the spec's scenario), and at
`virtualW = 220 ≤ 300` the plain motif is kept. -/
theorem resolveMotif_rule_witness :
    totalW widePlates > 300 ∧
    resolveMotif "m" ⟨400, 300⟩ widePlates = Resolved.mirrored 1750 ∧
    totalW demoPlates ≤ 300 ∧
    resolveMotif "m" ⟨400, 300⟩ demoPlates = Resolved.plain "m" 400 300 := by
  have hW : totalW widePlates = 350 := by norm_num [totalW, widePlates]
  have hH : maxH widePlates = 60 := by norm_num [maxH, widePlates, max_def]
  have hgt : totalW widePlates > 300 := by rw [hW]; norm_num
  have hle : totalW demoPlates ≤ 300 := by norm_num [totalW, demoPlates]
  have h1 := (resolveMotif_rule "m" ⟨400, 300⟩ widePlates).1 hgt
  have h2 := (resolveMotif_rule "m" ⟨400, 300⟩ demoPlates).2.1 hle
  refine ⟨hgt, ?_, hle, h2⟩
  rw [h1, hW, hH]
  have hmax : max (1 : ℚ) 60 = 60 := max_eq_right (by norm_num)
  rw [hmax]
  have harg : ((⟨400, 300⟩ : Bitmap).height : ℚ) * (350 / 60) = 1750 := by
    norm_num
  rw [harg]
  have hceil : ⌈(1750 : ℚ)⌉ = 1750 := by
    rw [Int.ceil_eq_iff]
    constructor <;> norm_num
  rw [hceil]
  norm_num

/-- Under the caller's bounds check, `movePlateList` preserves the length. -/
lemma movePlateList_length (i j : ℕ) (l : List Plate)
    (hi : i < l.length) (hj : j ≤ l.length - 1) :
    (movePlateList i j l).length = l.length := by
  rw [movePlateList]
  simp only [List.getElem?_eq_getElem hi]
  have he : (l.eraseIdx i).length + 1 = l.length :=
    List.length_eraseIdx_add_one hi
  rw [List.length_insertIdx _ _ (by omega)]
  omega

/-- C6: from any state with 1–10 plates, every store operation keeps the
plate count in [1,10]; `addPlate` on a full (10-plate) state is a no-op, and
`removeById` on a single-plate state is a no-op. -/
theorem store_length_invariant (s : StoreState)
    (h1 : 1 ≤ s.plates.length) (h10 : s.plates.length ≤ 10) :
    (∀ (newId : String) (pw ph : Option ℚ),
      1 ≤ (addPlate newId pw ph s).plates.length ∧
      (addPlate newId pw ph s).plates.length ≤ 10) ∧
    (∀ id : String, 1 ≤ (removeById id s).plates.length ∧
      (removeById id s).plates.length ≤ 10) ∧
    (∀ (id : String) (pw ph : Option ℚ),
      1 ≤ (updatePlate id pw ph s).plates.length ∧
      (updatePlate id pw ph s).plates.length ≤ 10) ∧
    (∀ i j : ℤ, 1 ≤ (movePlate i j s).plates.length ∧
      (movePlate i j s).plates.length ≤ 10) ∧
    (∀ url : Option String, 1 ≤ (setMotifUrl url s).plates.length ∧
      (setMotifUrl url s).plates.length ≤ 10) ∧
    (∀ u : String, 1 ≤ (setUnit u s).plates.length ∧
      (setUnit u s).plates.length ≤ 10) ∧
    (1 ≤ (reset s).plates.length ∧ (reset s).plates.length ≤ 10) ∧
    (s.plates.length = 10 → ∀ (newId : String) (pw ph : Option ℚ),
      addPlate newId pw ph s = s) ∧
    (s.plates.length = 1 → ∀ id : String, removeById id s = s) := by
  refine ⟨?_, ?_, ?_, ?_, ?_, ?_, ?_, ?_, ?_⟩
  · intro newId pw ph
    by_cases hc : 10 ≤ s.plates.length
    · rw [addPlate, if_pos hc]
      exact ⟨h1, h10⟩
    · rw [addPlate, if_neg hc]
      simp only [List.length_append, List.length_cons, List.length_nil]
      omega
  · intro id
    rw [removeById]
    split
    · exact ⟨h1, h10⟩
    · split
      · rename_i hlen hne
        have hfle : (s.plates.filter fun p => p.id != id).length
            ≤ s.plates.length := List.length_filter_le _ _
        dsimp only
        exact ⟨by omega, by omega⟩
      · exact ⟨h1, h10⟩
  · intro id pw ph
    rw [updatePlate]
    simp only [List.length_map]
    exact ⟨h1, h10⟩
  · intro i j
    rw [movePlate]
    split
    · exact ⟨h1, h10⟩
    · rename_i hguard
      push_neg at hguard
      obtain ⟨hi0, hilt, hj0, hjlt⟩ := hguard
      have hmv : (movePlateList i.toNat j.toNat s.plates).length
          = s.plates.length :=
        movePlateList_length _ _ _ (by omega) (by omega)
      simp only [hmv]
      exact ⟨h1, h10⟩
  · intro url
    exact ⟨h1, h10⟩
  · intro u
    exact ⟨h1, h10⟩
  · constructor <;> simp [reset, defaultPlates]
  · intro hlen newId pw ph
    rw [addPlate, if_pos (by omega)]
  · intro hlen id
    rw [removeById, if_pos (by omega)]

/-- Witness for C6 at a two-plate state. -/
theorem store_length_invariant_witness :
    (1 ≤ (StoreState.mk [⟨"a", 120, 60⟩, ⟨"b", 100, 40⟩] "m" false
        UnitKind.cm).plates.length ∧
      (StoreState.mk [⟨"a", 120, 60⟩, ⟨"b", 100, 40⟩] "m" false
        UnitKind.cm).plates.length ≤ 10) ∧
    (1 ≤ (addPlate "c" none none (StoreState.mk [⟨"a", 120, 60⟩,
        ⟨"b", 100, 40⟩] "m" false UnitKind.cm)).plates.length ∧
      (addPlate "c" none none (StoreState.mk [⟨"a", 120, 60⟩,
        ⟨"b", 100, 40⟩] "m" false UnitKind.cm)).plates.length ≤ 10) ∧
    (1 ≤ (movePlate 0 1 (StoreState.mk [⟨"a", 120, 60⟩, ⟨"b", 100, 40⟩]
        "m" false UnitKind.cm)).plates.length ∧
      (movePlate 0 1 (StoreState.mk [⟨"a", 120, 60⟩, ⟨"b", 100, 40⟩]
        "m" false UnitKind.cm)).plates.length ≤ 10) := by
  have h := store_length_invariant (StoreState.mk [⟨"a", 120, 60⟩,
    ⟨"b", 100, 40⟩] "m" false UnitKind.cm) (by simp) (by simp)
  exact ⟨⟨by simp, by simp⟩, h.1 "c" none none, h.2.2.2.1 0 1⟩

lemma clamp_mem (v lo hi : ℚ) (h : lo ≤ hi) :
    lo ≤ clamp v lo hi ∧ clamp v lo hi ≤ hi := by
  unfold clamp
  exact ⟨le_min h (le_max_left lo v), min_le_left _ _⟩

lemma max_tenth {x y : ℚ} (hx : ∃ i : ℤ, x = (i : ℚ) / 10)
    (hy : ∃ j : ℤ, y = (j : ℚ) / 10) : ∃ k : ℤ, max x y = (k : ℚ) / 10 := by
  rcases hx with ⟨i, rfl⟩
  rcases hy with ⟨j, rfl⟩
  rcases le_total ((i : ℚ) / 10) ((j : ℚ) / 10) with h | h
  · exact ⟨j, max_eq_right h⟩
  · exact ⟨i, max_eq_left h⟩

lemma min_tenth {x y : ℚ} (hx : ∃ i : ℤ, x = (i : ℚ) / 10)
    (hy : ∃ j : ℤ, y = (j : ℚ) / 10) : ∃ k : ℤ, min x y = (k : ℚ) / 10 := by
  rcases hx with ⟨i, rfl⟩
  rcases hy with ⟨j, rfl⟩
  rcases le_total ((i : ℚ) / 10) ((j : ℚ) / 10) with h | h
  · exact ⟨i, min_eq_left h⟩
  · exact ⟨j, min_eq_right h⟩

lemma clamp_tenth {v lo hi : ℚ} (hv : ∃ i : ℤ, v = (i : ℚ) / 10)
    (hlo : ∃ i : ℤ, lo = (i : ℚ) / 10) (hhi : ∃ i : ℤ, hi = (i : ℚ) / 10) :
    ∃ k : ℤ, clamp v lo hi = (k : ℚ) / 10 := by
  unfold clamp
  exact min_tenth hhi (max_tenth hlo hv)

/-- C7: when a plate is appended (the sequence is not full), the appended
plate's width lies in [20,300], its height in [30,128], and both are rounded
to one decimal (integer multiples of 1/10) — for every input patch, including
missing or out-of-range fields. -/
theorem addPlate_appends_valid (s : StoreState) (newId : String)
    (pw ph : Option ℚ) (hlen : s.plates.length < 10) :
    ∃ p : Plate,
      (addPlate newId pw ph s).plates = s.plates ++ [p] ∧
      p.id = newId ∧
      20 ≤ p.widthCm ∧ p.widthCm ≤ 300 ∧
      30 ≤ p.heightCm ∧ p.heightCm ≤ 128 ∧
      (∃ a : ℤ, p.widthCm = (a : ℚ) / 10) ∧
      (∃ b : ℤ, p.heightCm = (b : ℚ) / 10) := by
  rw [addPlate, if_neg (by omega)]
  refine ⟨_, rfl, rfl, (clamp_mem _ _ _ (by norm_num)).1,
    (clamp_mem _ _ _ (by norm_num)).2, (clamp_mem _ _ _ (by norm_num)).1,
    (clamp_mem _ _ _ (by norm_num)).2, ?_, ?_⟩
  · exact clamp_tenth ⟨jsRound (pw.getD 100 * 10), rfl⟩
      ⟨200, by norm_num⟩ ⟨3000, by norm_num⟩
  · exact clamp_tenth ⟨jsRound (ph.getD 60 * 10), rfl⟩
      ⟨300, by norm_num⟩ ⟨1280, by norm_num⟩

/-- Witness for C7: adding a plate with an out-of-range width patch (1000)
and no height patch to a two-plate state. -/
theorem addPlate_appends_valid_witness :
    sDemo.plates.length < 10 ∧
    ∃ p : Plate,
      (addPlate "c" (some 1000) none sDemo).plates = sDemo.plates ++ [p] ∧
      p.id = "c" ∧
      20 ≤ p.widthCm ∧ p.widthCm ≤ 300 ∧
      30 ≤ p.heightCm ∧ p.heightCm ≤ 128 ∧
      (∃ a : ℤ, p.widthCm = (a : ℚ) / 10) ∧
      (∃ b : ℤ, p.heightCm = (b : ℚ) / 10) :=
  ⟨by simp [sDemo], addPlate_appends_valid sDemo "c" (some 1000) none
    (by simp [sDemo])⟩

lemma perm_insertIdx (x : Plate) :
    ∀ (n : ℕ) (l : List Plate), n ≤ l.length →
      (l.insertIdx n x).Perm (x :: l)
  | 0, l, _ => by simp
  | n + 1, [], h => by simp at h
  | n + 1, a :: l, h => by
      simp only [List.insertIdx_succ_cons]
      exact ((perm_insertIdx x n l (Nat.le_of_succ_le_succ h)).cons a).trans
        (List.Perm.swap x a l)

lemma perm_cons_eraseIdx :
    ∀ (l : List Plate) (i : ℕ) (x : Plate), l[i]? = some x →
      l.Perm (x :: l.eraseIdx i)
  | [], _, x, h => by simp at h
  | a :: l, 0, x, h => by
      simp only [List.getElem?_cons_zero, Option.some.injEq] at h
      subst h
      simp [List.eraseIdx]
  | a :: l, i + 1, x, h => by
      simp only [List.getElem?_cons_succ] at h
      have ih := perm_cons_eraseIdx l i x h
      simp only [List.eraseIdx_cons_succ]
      exact (ih.cons a).trans (List.Perm.swap x a _)

/-- C8: an in-range `movePlate(from, to)` permutes the plate sequence
(preserving the multiset of plate records, hence ids and field values) and
puts the element that was at `from` at position `to`; any out-of-range move
leaves the state unchanged. -/
theorem movePlate_spec (s : StoreState) (i j : ℤ) :
    ((0 ≤ i ∧ i < (s.plates.length : ℤ) ∧ 0 ≤ j ∧ j < (s.plates.length : ℤ)) →
      (movePlate i j s).plates.Perm s.plates ∧
      (movePlate i j s).plates[j.toNat]? = s.plates[i.toNat]?) ∧
    ((i < 0 ∨ (s.plates.length : ℤ) ≤ i ∨ j < 0 ∨ (s.plates.length : ℤ) ≤ j) →
      movePlate i j s = s) := by
  constructor
  · rintro ⟨hi0, hilt, hj0, hjlt⟩
    have hguard : ¬(i < 0 ∨ (s.plates.length : ℤ) ≤ i
        ∨ j < 0 ∨ (s.plates.length : ℤ) ≤ j) := by
      push_neg
      exact ⟨hi0, hilt, hj0, hjlt⟩
    rw [movePlate, if_neg hguard]
    have hi' : i.toNat < s.plates.length := by omega
    have hsome : s.plates[i.toNat]? = some s.plates[i.toNat] :=
      List.getElem?_eq_getElem hi'
    have he : (s.plates.eraseIdx i.toNat).length + 1 = s.plates.length :=
      List.length_eraseIdx_add_one hi'
    have hj' : j.toNat ≤ (s.plates.eraseIdx i.toNat).length := by omega
    dsimp only
    rw [movePlateList]
    simp only [hsome]
    constructor
    · exact (perm_insertIdx _ _ _ hj').trans
        (perm_cons_eraseIdx _ _ _ hsome).symm
    · have hlt : j.toNat < ((s.plates.eraseIdx i.toNat).insertIdx j.toNat
          s.plates[i.toNat]).length := by
        rw [List.length_insertIdx _ _ hj']
        omega
      rw [List.getElem?_eq_getElem hlt,
        List.getElem_insertIdx_self _ _ _ hj']
  · intro hguard
    rw [movePlate, if_pos hguard]

/-- Witness for C8: moving index 0 to index 1 in a two-plate state. -/
theorem movePlate_spec_witness :
    ((0 : ℤ) ≤ 0 ∧ (0 : ℤ) < (sDemo.plates.length : ℤ) ∧
     (0 : ℤ) ≤ 1 ∧ (1 : ℤ) < (sDemo.plates.length : ℤ)) ∧
    ((movePlate 0 1 sDemo).plates.Perm sDemo.plates ∧
     (movePlate 0 1 sDemo).plates[(1 : ℤ).toNat]?
       = sDemo.plates[(0 : ℤ).toNat]?) :=
  ⟨⟨by norm_num, by simp [sDemo], by norm_num, by simp [sDemo]⟩,
   (movePlate_spec sDemo 0 1).1
     ⟨by norm_num, by simp [sDemo], by norm_num, by simp [sDemo]⟩⟩

/-- C9: unit conversion round-trips exactly: `unitToCm (cmToUnit v) = v` for
every value and either active unit, with `cmToUnit` dividing by 2.54 and
`unitToCm` multiplying by 2.54 when the unit is inches, and both the identity
when it is centimeters. -/
theorem unit_conversion_roundtrip (s : StoreState) (v : ℚ) :
    unitToCm s (cmToUnit s v) = v ∧
    (s.unit = UnitKind.inch →
      cmToUnit s v = v / CM_PER_IN ∧ unitToCm s v = v * CM_PER_IN) ∧
    (s.unit = UnitKind.cm → cmToUnit s v = v ∧ unitToCm s v = v) := by
  refine ⟨?_, ?_, ?_⟩
  · by_cases h : s.unit = UnitKind.inch
    · rw [cmToUnit, unitToCm, if_pos h, if_pos h]
      exact div_mul_cancel₀ v (by norm_num [CM_PER_IN])
    · rw [cmToUnit, unitToCm, if_neg h, if_neg h]
  · intro h
    rw [cmToUnit, unitToCm, if_pos h, if_pos h]
    exact ⟨rfl, rfl⟩
  · intro h
    have h' : s.unit ≠ UnitKind.inch := by
      rw [h]
      intro hc
      exact UnitKind.noConfusion hc
    rw [cmToUnit, unitToCm, if_neg h', if_neg h']
    exact ⟨rfl, rfl⟩

/-- Witness for C9 at `v = 5`, in both unit modes. -/
theorem unit_conversion_roundtrip_witness :
    unitToCm sDemo (cmToUnit sDemo 5) = 5 ∧
    unitToCm sDemoIn (cmToUnit sDemoIn 5) = 5 ∧
    cmToUnit sDemoIn 5 = 5 / CM_PER_IN :=
  ⟨(unit_conversion_roundtrip sDemo 5).1,
   (unit_conversion_roundtrip sDemoIn 5).1,
   ((unit_conversion_roundtrip sDemoIn 5).2.1 rfl).1⟩

/-- C10: `setMotifUrl` with a falsy argument (`undefined`/`null` modelled as
`none`, or the empty string) leaves the entire state unchanged, so the motif
reference can never be cleared through it; with a non-empty url it sets
`motifUrl` to exactly that url and changes no other field. -/
theorem setMotifUrl_spec (s : StoreState) :
    setMotifUrl none s = s ∧
    setMotifUrl (some "") s = s ∧
    (∀ u : String, u ≠ "" →
      (setMotifUrl (some u) s).motifUrl = u ∧
      (setMotifUrl (some u) s).plates = s.plates ∧
      (setMotifUrl (some u) s).unit = s.unit ∧
      (setMotifUrl (some u) s).mirrorEnabled = s.mirrorEnabled) := by
  exact ⟨rfl, rfl, fun u hu => ⟨if_neg hu, rfl, rfl, rfl⟩⟩

/-- Witness for C10 at the demo state with url `"x"`. -/
theorem setMotifUrl_spec_witness :
    setMotifUrl none sDemo = sDemo ∧
    setMotifUrl (some "") sDemo = sDemo ∧
    ((setMotifUrl (some "x") sDemo).motifUrl = "x" ∧
     (setMotifUrl (some "x") sDemo).plates = sDemo.plates ∧
     (setMotifUrl (some "x") sDemo).unit = sDemo.unit ∧
     (setMotifUrl (some "x") sDemo).mirrorEnabled = sDemo.mirrorEnabled) :=
  ⟨(setMotifUrl_spec sDemo).1, (setMotifUrl_spec sDemo).2.1,
   (setMotifUrl_spec sDemo).2.2 "x" (by decide)⟩

end PlateGen

